import Mathlib

/-!
Verification development for the st-voyageai-memory extension.

The development shallowly embeds the extension's core modules:

* `lib/similarity.js` — `cosineSimilarity`, `findTopKSimilar`;
* `lib/storage.js` — `generateUUID`, `MemoryStorage`
  (`loadMemories` / `saveMemories` / `addMemory` / `exportMemories` /
  `importMemories`) and `createMemory`;
* `lib/summarizer.js` — `SummarizerClient.summarize`;
* `index.js` — `processAndStoreMessage` and its single-flight guard.

Modelling conventions:

* JavaScript numbers are modelled as real numbers (`ℝ`); the similarity
  code uses `Math.sqrt`, so the vector-math definitions are marked
  `noncomputable` while everything else stays executable.
* A JavaScript value that may be `null`/`undefined` is an `Option`.
* Asynchronous calls to external HTTP services are modelled as oracle
  arguments carrying the outcome of the call (`Except`); a function that
  never consults its oracle is one that issues no request.
* `localStorage` writes can throw (for example on quota exhaustion); a
  `persistOk : Bool` argument tells the model whether `setItem`
  succeeds, mirroring the `try`/`catch` in `saveMemories`.
* Serialized JSON is represented by its parsed value: `JSON.parse` is a
  left inverse of `JSON.stringify` on the plain-data store objects that
  `exportMemories` emits, so a round-tripped string is modelled by the
  store data itself.
-/

open List

/-- One stored memory record, as produced by `createMemory` plus the
`id`/`timestamp` fields `addMemory` adds.  The `metadata` object of the
source is flattened into the `role`, `chat_id` and `importance` fields. -/
structure MemoryRecord where
  id : String
  timestamp : String
  original_message : String
  summary : String
  embedding : Option (List ℝ)
  role : String
  chat_id : Option String
  importance : ℝ

/-- Sum of squares of a vector, the `normA`/`normB` accumulator of the
loop in `cosineSimilarity` before `Math.sqrt` is applied. -/
noncomputable def sumOfSquares (v : List ℝ) : ℝ :=
  (v.map (fun x => x * x)).sum

/-- The `dotProduct` accumulator of the loop in `cosineSimilarity`
(the loop runs over indices of `vecA`; it is only reached when the two
vectors have equal length, so a `zipWith` is the same sum). -/
noncomputable def dotProduct (a b : List ℝ) : ℝ :=
  (List.zipWith (fun x y => x * y) a b).sum

/-- Embeds `cosineSimilarity(vecA, vecB)` of `lib/similarity.js`.
`none` stands for a `null`/`undefined` argument (an empty array is a
present value in JavaScript and does not take this branch).  The guard
`normA === 0 || normB === 0` is checked on the square roots exactly as
in the source. -/
noncomputable def cosineSimilarity (vecA vecB : Option (List ℝ)) : ℝ :=
  match vecA, vecB with
  | some a, some b =>
    if a.length ≠ b.length then 0
    else
      let normA := Real.sqrt (sumOfSquares a)
      let normB := Real.sqrt (sumOfSquares b)
      if normA = 0 ∨ normB = 0 then 0
      else dotProduct a b / (normA * normB)
  | _, _ => 0

/-- The filter `memory.embedding && memory.embedding.length > 0` of
`findTopKSimilar`: a memory participates in retrieval only when its
embedding is present and non-empty. -/
def hasEmbedding (m : MemoryRecord) : Bool :=
  match m.embedding with
  | some e => decide (0 < e.length)
  | none => false

/-- The scored candidate list of `findTopKSimilar` before sorting:
filter to memories with a usable embedding, score each against the
query, and keep the scores at or above the threshold. -/
noncomputable def scoredMemories (queryEmbedding : Option (List ℝ))
    (memories : List MemoryRecord) (threshold : ℝ) :
    List (MemoryRecord × ℝ) :=
  ((memories.filter hasEmbedding).map
      (fun m => (m, cosineSimilarity queryEmbedding m.embedding))).filter
    (fun item => decide (threshold ≤ item.2))

/-- The comparator `(a, b) => b.similarity - a.similarity` of the
source's `.sort`: `a` may stay before `b` exactly when `b`'s score does
not exceed `a`'s.  ECMAScript's `Array.prototype.sort` is a stable sort,
which `List.mergeSort` models. -/
noncomputable def simDescending (a b : MemoryRecord × ℝ) : Bool :=
  decide (b.2 ≤ a.2)

/-- Embeds `findTopKSimilar(queryEmbedding, memories, topK, threshold)`
of `lib/similarity.js`: the early return fires on a `null` query or an
empty memory list, then score, filter, stable-sort descending and take
the first `topK`. -/
noncomputable def findTopKSimilar (queryEmbedding : Option (List ℝ))
    (memories : List MemoryRecord) (topK : Nat) (threshold : ℝ) :
    List (MemoryRecord × ℝ) :=
  match queryEmbedding with
  | none => []
  | some _ =>
    if memories.length = 0 then []
    else
      ((scoredMemories queryEmbedding memories threshold).mergeSort
        simDescending).take topK

/-! ## Storage (`lib/storage.js`) -/

/-- The per-entity store object of `lib/storage.js` (the shape
`loadMemories` synthesizes and `exportMemories` serializes). -/
structure StoreData where
  character_id : String
  character_name : String
  created_at : String
  updated_at : String
  memories : List MemoryRecord

/-- The mutable world of a `MemoryStorage` instance: the in-memory
`cache` map, the per-character files the `fetch` in `loadMemories`
reads (keyed by sanitized character id), and the `localStorage` entries
`saveMemories` writes (keyed by character id). -/
structure StorageState where
  cache : String → Option StoreData
  files : String → Option StoreData
  localStore : String → Option StoreData

/-- Point update of one of the string-keyed maps of `StorageState`. -/
def updateMap (m : String → Option StoreData) (k : String) (v : StoreData) :
    String → Option StoreData :=
  fun c => if c = k then some v else m c

/-- The filename sanitizer of `getFilePath`: the regex
`[^a-zA-Z0-9_-]` replaced by underscores. -/
def sanitizeId (characterId : String) : String :=
  characterId.map (fun c => if c.isAlphanum || c = '_' || c = '-' then c else '_')

/-- Embeds `MemoryStorage.loadMemories(characterId, characterName)`:
cache hit returns the cached object; otherwise the persisted file is
fetched and cached; on any fetch failure a fresh empty store is
synthesized and cached.  `now` is the clock reading used for the fresh
store's timestamps.  Returns the loaded data with the updated state. -/
def loadMemories (characterId characterName now : String) (s : StorageState) :
    StoreData × StorageState :=
  match s.cache characterId with
  | some data => (data, s)
  | none =>
    match s.files (sanitizeId characterId) with
    | some data => (data, { s with cache := updateMap s.cache characterId data })
    | none =>
      let newData : StoreData :=
        { character_id := characterId, character_name := characterName,
          created_at := now, updated_at := now, memories := [] }
      (newData, { s with cache := updateMap s.cache characterId newData })

/-- Embeds `MemoryStorage.saveMemories(characterId, data)`: stamp
`updated_at`, update the cache, then attempt the `localStorage` write;
`persistOk` tells whether `setItem` succeeds, and the boolean result is
the function's success status.  The cache is updated in either case —
the write attempt comes after the cache assignment in the source. -/
def saveMemories (characterId : String) (data : StoreData) (persistOk : Bool)
    (now : String) (s : StorageState) : Bool × StorageState :=
  let data1 := { data with updated_at := now }
  let s1 := { s with cache := updateMap s.cache characterId data1 }
  if persistOk then
    (true, { s1 with localStore := updateMap s1.localStore characterId data1 })
  else
    (false, s1)

/-- The memories observable for a character: what `loadMemories`
followed by `.memories` yields, without the cache side effect (cache
first, then the persisted file, else empty). -/
def storedMemories (characterId : String) (s : StorageState) : List MemoryRecord :=
  match s.cache characterId with
  | some d => d.memories
  | none =>
    match s.files (sanitizeId characterId) with
    | some d => d.memories
    | none => []

/-- Hex digit of the UUID generator: `v.toString(16)` for `v < 16`
(lower-case, as `Nat.digitChar` renders it). -/
def hexDigit (v : Nat) : Char := Nat.digitChar v

/-- Embeds `generateUUID()` of `lib/storage.js`: the template
`xxxxxxxx-xxxx-4xxx-yxxx-xxxxxxxxxxxx` with every `x` replaced by a
random hex digit `r` and the `y` by `(r & 0x3 | 0x8)`.  `rnd` is the
stream of `Math.random() * 16 | 0` draws, one per replaced character. -/
def generateUUID (rnd : Nat → Fin 16) : String :=
  ("xxxxxxxx-xxxx-4xxx-yxxx-xxxxxxxxxxxx".data.foldl
    (fun (acc : String × Nat) (c : Char) =>
      if c = 'x' then (acc.1.push (hexDigit (rnd acc.2).val), acc.2 + 1)
      else if c = 'y' then
        (acc.1.push (hexDigit (((rnd acc.2).val &&& 3) ||| 8)), acc.2 + 1)
      else (acc.1.push c, acc.2))
    ("", 0)).1

/-- The partial memory object `createMemory` builds (no `id`, no
`timestamp`; those are added by `addMemory`).  The `metadata` map is
flattened as in `MemoryRecord`. -/
structure MemoryDraft where
  original_message : String
  summary : String
  embedding : Option (List ℝ)
  role : String
  chat_id : Option String
  importance : ℝ

/-- Embeds `createMemory(originalMessage, summary, embedding, metadata)`
of `lib/storage.js` as called by the pipeline (metadata carrying `role`
and `chatId`): `role` defaults to `unknown` when falsy, `chat_id` is the
passed `chatId` (or null), `importance` defaults to `0.5`. -/
noncomputable def createMemory (originalMessage summary : String)
    (embedding : List ℝ) (role : String) (chatId : Option String) : MemoryDraft :=
  { original_message := originalMessage, summary := summary,
    embedding := some embedding,
    role := if role = "" then "unknown" else role,
    chat_id := chatId,
    importance := (1 : ℝ) / 2 }

/-- Embeds `MemoryStorage.addMemory(characterId, memory)`: load, build
the record with a freshly generated id and the current timestamp, append
it, save, and return the finalized record. -/
def addMemory (rnd : Nat → Fin 16) (now characterId : String)
    (draft : MemoryDraft) (persistOk : Bool) (s : StorageState) :
    MemoryRecord × StorageState :=
  let load := loadMemories characterId "" now s
  let newMemory : MemoryRecord :=
    { id := generateUUID rnd, timestamp := now,
      original_message := draft.original_message, summary := draft.summary,
      embedding := draft.embedding, role := draft.role,
      chat_id := draft.chat_id, importance := draft.importance }
  let data1 := { load.1 with memories := load.1.memories ++ [newMemory] }
  let save := saveMemories characterId data1 persistOk now load.2
  (newMemory, save.2)

/-- Embeds `MemoryStorage.exportMemories(characterId)`: load and
pretty-print the whole store object.  The emitted JSON string is
represented by its parsed value, the `StoreData` itself (the store is
plain data, so `JSON.parse` inverts `JSON.stringify` on it). -/
def exportMemories (characterId now : String) (s : StorageState) :
    StoreData × StorageState :=
  loadMemories characterId "" now s

/-- The parse of an import file: `memories` is `some` list exactly when
the payload carries an array-typed `memories` field (the shape
`importMemories` validates). -/
structure ImportPayload where
  memories : Option (List MemoryRecord)

/-- Embeds `MemoryStorage.importMemories(characterId, jsonString,
merge)` on an already-parsed payload: reject a payload without a
memories array; with `merge` append the payload memories whose id is not
already present (existing records win), otherwise replace the whole
sequence; save; return the length of the payload's memories array. -/
def importMemories (characterId : String) (payload : ImportPayload)
    (merge persistOk : Bool) (now : String) (s : StorageState) :
    Except String Nat × StorageState :=
  match payload.memories with
  | none => (.error "Invalid memory file format", s)
  | some ms =>
    let load := loadMemories characterId "" now s
    let newMemories :=
      if merge then
        load.1.memories ++
          ms.filter (fun m => !((load.1.memories.map (fun x => x.id)).contains m.id))
      else ms
    let data1 := { load.1 with memories := newMemories }
    let save := saveMemories characterId data1 persistOk now load.2
    (.ok ms.length, save.2)

/-! ## Summarizer (`lib/summarizer.js`) -/

/-- Model of ECMAScript `String.prototype.trim` on a character list:
drop whitespace from both ends. -/
def jsTrimList (cs : List Char) : List Char :=
  ((cs.dropWhile Char.isWhitespace).reverse.dropWhile Char.isWhitespace).reverse

/-- String-level wrapper of `jsTrimList`. -/
def jsTrim (str : String) : String :=
  String.mk (jsTrimList str.data)

/-- Outcome of the `fetch` call inside `SummarizerClient.summarize`:
the request itself can fail, the response can be a non-2xx status (with
the detail text the source interpolates after it), or a success whose
extracted `choices[0].message.content` may be missing. -/
inductive FetchOutcome where
  | networkFailure (msg : String)
  | httpError (status : Nat) (detail : String)
  | success (content : Option String)

/-- The distinct throw sites of `SummarizerClient.summarize`. -/
inductive SummarizeError where
  | configMissing
  | apiError (status : Nat) (detail : String)
  | networkFailure (msg : String)
  | noSummary
deriving DecidableEq

/-- Embeds `SummarizerClient.summarize(message, context)` of
`lib/summarizer.js`: missing URL or key throws; an empty or
whitespace-only message returns the empty string before any request is
made; otherwise the request outcome decides: HTTP/network failures
re-throw, and a response whose trimmed content is missing or empty
throws the no-summary error; a usable response returns the trimmed
content. -/
def summarize (apiUrl apiKey message : String) (fetch : FetchOutcome) :
    Except SummarizeError String :=
  if apiUrl = "" ∨ apiKey = "" then .error .configMissing
  else if (jsTrimList message.data).length = 0 then .ok ""
  else
    match fetch with
    | .networkFailure m => .error (.networkFailure m)
    | .httpError status detail => .error (.apiError status detail)
    | .success none => .error .noSummary
    | .success (some c) =>
      if jsTrim c = "" then .error .noSummary else .ok (jsTrim c)

/-! ## Write-path orchestrator (`index.js`, `processAndStoreMessage`) -/

/-- What a `processAndStoreMessage` invocation does, as observable by
the caller: silently dropped by a guard, stored one record with a
success notification, or failed with exactly one surfaced error. -/
inductive ProcessOutcome where
  | dropped
  | stored (record : MemoryRecord)
  | failed (err : String)

/-- Embeds `processAndStoreMessage(messageText, role, context)` of
`index.js`.  `inFlight` is the process-wide `isProcessing` flag at entry;
`includeHistory` combines `settings.include_history && context.characterId`
(the branch whose `getRecentSummaries` call touches the store cache);
`summarizeResult` is the outcome of the `summarizerClient.summarize`
call and `embedResult` that of `voyageClient.embedDocument` on a given
summary (error values are the surfaced `error.message` strings).  The
result is the outcome, the `isProcessing` flag after return (the
`finally` clause clears it whenever the guards were passed) and the
storage state. -/
noncomputable def processAndStoreMessage (inFlight : Bool)
    (messageText role : String) (includeHistory : Bool)
    (characterId : String) (chatId : Option String)
    (summarizeResult : Except String String)
    (embedResult : String → Except String (List ℝ))
    (rnd : Nat → Fin 16) (now : String) (persistOk : Bool)
    (s : StorageState) : ProcessOutcome × Bool × StorageState :=
  if inFlight then (.dropped, inFlight, s)
  else if (jsTrimList messageText.data).length < 20 then (.dropped, inFlight, s)
  else
    let s1 := if includeHistory then (loadMemories characterId "" now s).2 else s
    match summarizeResult with
    | .error e => (.failed e, false, s1)
    | .ok summary =>
      if summary = "" then (.failed "Failed to generate summary", false, s1)
      else
        match embedResult summary with
        | .error e => (.failed e, false, s1)
        | .ok embedding =>
          if embedding.length = 0 then
            (.failed "Failed to generate embedding", false, s1)
          else
            let draft := createMemory messageText summary embedding role chatId
            let add := addMemory rnd now characterId draft persistOk s1
            (.stored add.1, false, add.2)

/-! ## Single-flight trace model

`processAndStoreMessage` checks `isProcessing` and sets it to `true` in
one synchronous prologue with no `await` in between, and its `finally`
clause resets it; the host runtime is single-threaded, so these two
moments are the only transitions of the flag.  A trace of invocation
events therefore drives the following transition system, where `active`
lists the invocations that passed the guard and have not yet finished. -/

/-- A write-path invocation entering its synchronous prologue
(`invoke`), or an in-flight invocation reaching its `finally` clause
(`finish`). -/
inductive WriteEvent where
  | invoke (i : Nat)
  | finish (i : Nat)

/-- Flag plus the set of in-flight write-path executions. -/
structure FlagState where
  flag : Bool
  active : List Nat

/-- Initial state: flag clear, nothing in flight. -/
def flagInit : FlagState := { flag := false, active := [] }

/-- One event: an `invoke` while the flag is set is dropped (the guard
returns without touching anything); otherwise it sets the flag and
becomes active.  A `finish` of an active invocation clears the flag. -/
def flagStep (st : FlagState) (ev : WriteEvent) : FlagState :=
  match ev with
  | .invoke i => if st.flag then st else { flag := true, active := i :: st.active }
  | .finish i =>
    if i ∈ st.active then { flag := false, active := st.active.erase i } else st

/-! ## Counterexample fixtures -/

/-- A concrete memory record used by the counterexamples. -/
def cexRecord (i : String) : MemoryRecord :=
  { id := i, timestamp := "t0", original_message := "msg", summary := "sum",
    embedding := none, role := "user", chat_id := none, importance := 0 }

/-- A store for character `c` holding the single record with id `a`. -/
def cexStore : StoreData :=
  { character_id := "c", character_name := "name", created_at := "t0",
    updated_at := "t0", memories := [cexRecord "a"] }

/-- A storage state whose cache holds `cexStore` for character `c` and
whose persistence layers are empty. -/
def cexState : StorageState :=
  { cache := fun c => if c = "c" then some cexStore else none,
    files := fun _ => none, localStore := fun _ => none }

/-- A store for character `c` holding one record whose id is the UUID
that `generateUUID` produces when every random draw is `0`. -/
def cexStoreDup : StoreData :=
  { character_id := "c", character_name := "name", created_at := "t0",
    updated_at := "t0",
    memories := [cexRecord "00000000-0000-4000-8000-000000000000"] }

/-- A storage state whose cache holds `cexStoreDup` for character `c`. -/
def cexStateDup : StorageState :=
  { cache := fun c => if c = "c" then some cexStoreDup else none,
    files := fun _ => none, localStore := fun _ => none }

/-- A concrete record with a usable one-dimensional embedding. -/
def cexRecordEmb : MemoryRecord :=
  { id := "m1", timestamp := "t0", original_message := "msg", summary := "sum",
    embedding := some [1], role := "user", chat_id := none, importance := 0 }

/-! ## Basic facts about the embedded definitions -/

theorem sumOfSquares_nonneg (v : List ℝ) : 0 ≤ sumOfSquares v := by
  apply List.sum_nonneg
  intro x hx
  rcases List.mem_map.mp hx with ⟨y, -, rfl⟩
  exact mul_self_nonneg y

theorem loadMemories_cache_self (cid n now : String) (s : StorageState) :
    ((loadMemories cid n now s).2).cache cid = some (loadMemories cid n now s).1 := by
  unfold loadMemories
  rcases hc : s.cache cid with - | d
  · rcases hf : s.files (sanitizeId cid) with - | d
    · simp [updateMap]
    · simp [updateMap]
  · simp [hc]

theorem loadMemories_localStore (cid n now : String) (s : StorageState) :
    (loadMemories cid n now s).2.localStore = s.localStore := by
  unfold loadMemories
  rcases hc : s.cache cid with - | d
  · rcases hf : s.files (sanitizeId cid) with - | d <;> simp
  · simp

theorem loadMemories_memories (cid n now : String) (s : StorageState) :
    (loadMemories cid n now s).1.memories = storedMemories cid s := by
  unfold loadMemories storedMemories
  rcases hc : s.cache cid with - | d
  · rcases hf : s.files (sanitizeId cid) with - | d <;> simp
  · simp

theorem loadMemories_cache_hit (cid n now : String) (s : StorageState)
    (d : StoreData) (h : s.cache cid = some d) :
    loadMemories cid n now s = (d, s) := by
  unfold loadMemories
  simp [h]

theorem storedMemories_load (c cid n now : String) (s : StorageState) :
    storedMemories c (loadMemories cid n now s).2 = storedMemories c s := by
  unfold loadMemories storedMemories updateMap
  rcases hc : s.cache cid with - | d
  · rcases hf : s.files (sanitizeId cid) with - | d
    · by_cases hcc : c = cid
      · subst hcc
        simp [hc, hf]
      · simp [hcc]
    · by_cases hcc : c = cid
      · subst hcc
        simp [hc, hf]
      · simp [hcc]
  · simp

theorem saveMemories_cache (cid : String) (d : StoreData) (persistOk : Bool)
    (now : String) (s : StorageState) :
    ((saveMemories cid d persistOk now s).2).cache cid =
      some { d with updated_at := now } := by
  unfold saveMemories
  cases persistOk <;> simp [updateMap]

theorem storedMemories_save (cid : String) (d : StoreData) (persistOk : Bool)
    (now : String) (s : StorageState) :
    storedMemories cid (saveMemories cid d persistOk now s).2 = d.memories := by
  unfold storedMemories
  rw [saveMemories_cache]

theorem saveMemories_localStore_fail (cid : String) (d : StoreData)
    (now : String) (s : StorageState) :
    (saveMemories cid d false now s).2.localStore = s.localStore := by
  unfold saveMemories
  simp

theorem saveMemories_localStore_ok (cid : String) (d : StoreData)
    (now : String) (s : StorageState) :
    (saveMemories cid d true now s).2.localStore cid =
      some { d with updated_at := now } := by
  unfold saveMemories
  simp [updateMap]

/-- C7: `cosineSimilarity` never raises.  A missing vector, a length
mismatch, or a zero-norm vector yields exactly `0`; in the remaining
case the denominator of the division is provably non-zero, so no
division by zero is ever performed.  Totality itself is inherent: the
embedded function is a total function into `ℝ`. -/
theorem cosineSimilarity_failsSoft :
    (∀ b, cosineSimilarity none b = 0)
    ∧ (∀ a, cosineSimilarity a none = 0)
    ∧ (∀ va vb : List ℝ, va.length ≠ vb.length →
        cosineSimilarity (some va) (some vb) = 0)
    ∧ (∀ va vb : List ℝ, sumOfSquares va = 0 →
        cosineSimilarity (some va) (some vb) = 0)
    ∧ (∀ va vb : List ℝ, sumOfSquares vb = 0 →
        cosineSimilarity (some va) (some vb) = 0)
    ∧ (∀ va vb : List ℝ, va.length = vb.length →
        sumOfSquares va ≠ 0 → sumOfSquares vb ≠ 0 →
        Real.sqrt (sumOfSquares va) * Real.sqrt (sumOfSquares vb) ≠ 0 ∧
        cosineSimilarity (some va) (some vb) =
          dotProduct va vb /
            (Real.sqrt (sumOfSquares va) * Real.sqrt (sumOfSquares vb))) := by
  refine ⟨fun b => by cases b <;> rfl, fun a => by cases a <;> rfl, ?_, ?_, ?_, ?_⟩
  · intro va vb h
    simp [cosineSimilarity, h]
  · intro va vb h
    by_cases hl : va.length = vb.length
    · simp [cosineSimilarity, hl, h, Real.sqrt_zero]
    · simp [cosineSimilarity, hl]
  · intro va vb h
    by_cases hl : va.length = vb.length
    · simp [cosineSimilarity, hl, h, Real.sqrt_zero]
    · simp [cosineSimilarity, hl]
  · intro va vb hl ha hb
    have hA : 0 < Real.sqrt (sumOfSquares va) :=
      Real.sqrt_pos.mpr (lt_of_le_of_ne (sumOfSquares_nonneg va) (Ne.symm ha))
    have hB : 0 < Real.sqrt (sumOfSquares vb) :=
      Real.sqrt_pos.mpr (lt_of_le_of_ne (sumOfSquares_nonneg vb) (Ne.symm hb))
    refine ⟨mul_ne_zero hA.ne' hB.ne', ?_⟩
    simp [cosineSimilarity, hl, hA.ne', hB.ne']

/-! ## Retrieval claims: supporting lemmas -/

theorem simDescending_trans : ∀ a b c : MemoryRecord × ℝ,
    simDescending a b → simDescending b c → simDescending a c := by
  intro a b c hab hbc
  simp only [simDescending, decide_eq_true_eq] at hab hbc ⊢
  exact le_trans hbc hab

theorem simDescending_total : ∀ a b : MemoryRecord × ℝ,
    simDescending a b || simDescending b a := by
  intro a b
  simp only [simDescending]
  rcases le_total a.2 b.2 with h | h <;> simp [h]

/-- Stability of a stable sort, filter form: for a comparator under
which all elements selected by `f` are mutually orderable (as is the
case for the elements sharing one similarity score), sorting commutes
with filtering by `f` — the selected elements keep their original
relative order. -/
theorem mergeSort_filter_key (le : α → α → Bool) (f : α → Bool)
    (htrans : ∀ a b c, le a b → le b c → le a c)
    (htotal : ∀ a b, le a b || le b a)
    (hmut : ∀ a b, f a = true → f b = true → le a b = true)
    (l : List α) :
    (l.mergeSort le).filter f = l.filter f := by
  have hpw : (l.filter f).Pairwise (fun a b => le a b) := by
    apply List.pairwise_of_forall_mem_list
    intro a ha b hb
    exact hmut a b (List.mem_filter.mp ha).2 (List.mem_filter.mp hb).2
  have hsub : l.filter f <+ l.mergeSort le :=
    List.sublist_mergeSort htrans htotal hpw (List.filter_sublist l)
  have hself : (l.filter f).filter f = l.filter f :=
    List.filter_eq_self.mpr (fun a ha => (List.mem_filter.mp ha).2)
  have hsub2 : l.filter f <+ (l.mergeSort le).filter f := by
    have h := hsub.filter f
    rwa [hself] at h
  have hperm : (l.mergeSort le).filter f ~ l.filter f :=
    (List.mergeSort_perm l le).filter f
  exact (hsub2.eq_of_length hperm.length_eq.symm).symm

/-! ## Import / export claims -/

/-- Filtering a list of records to those whose id does not occur among
the list's own ids removes everything: the duplicate-skipping filter of
a merge import drops every record of a payload that equals the current
store. -/
theorem filter_not_contains_self (ms : List MemoryRecord) :
    ms.filter (fun m => !((ms.map (fun x => x.id)).contains m.id)) = [] := by
  apply List.filter_eq_nil_iff.mpr
  intro m hm
  have hmem : m.id ∈ ms.map (fun x => x.id) := List.mem_map.mpr ⟨m, hm, rfl⟩
  simp [hmem]

/-- A merge import whose payload equals the cached store's own memories
adds nothing: the store keeps its memories and only `updated_at`
changes. -/
theorem importMerge_self (cid : String) (pOk : Bool) (tn : String)
    (s : StorageState) (d : StoreData) (hc : s.cache cid = some d) :
    storedMemories cid
        (importMemories cid { memories := some d.memories } true pOk tn s).2 =
      d.memories
    ∧ (importMemories cid { memories := some d.memories } true pOk tn s).2.cache cid =
        some { d with updated_at := tn } := by
  have hload := loadMemories_cache_hit cid "" tn s d hc
  constructor
  · simp only [importMemories, hload, if_true]
    rw [filter_not_contains_self, List.append_nil]
    exact storedMemories_save cid d pOk tn s
  · simp only [importMemories, hload, if_true]
    rw [filter_not_contains_self, List.append_nil]
    exact saveMemories_cache cid d pOk tn s

/-- C3 (amended): `importMemories` is cache-first, not atomic.  On a
well-formed payload it always reports the payload count as success and
always installs the fully merged result in the in-memory cache; the
persisted (`localStorage`) entry is written only when persistence
succeeds, and when persistence fails the call still reports success
while the merged state remains cached-but-unsaved (`saveMemories`
returns `false`, which `importMemories` ignores). -/
theorem importMemories_cacheFirst (ms : List MemoryRecord)
    (merge persistOk : Bool) (now cid : String) (s : StorageState) :
    (importMemories cid { memories := some ms } merge persistOk now s).1 =
        Except.ok ms.length
    ∧ (importMemories cid { memories := some ms } merge persistOk now s).2.cache cid =
        some { (loadMemories cid "" now s).1 with
               memories :=
                 (if merge then
                   (loadMemories cid "" now s).1.memories ++
                     ms.filter (fun m =>
                       !(((loadMemories cid "" now s).1.memories.map
                           (fun x => x.id)).contains m.id))
                 else ms),
               updated_at := now }
    ∧ (persistOk = false →
        (importMemories cid { memories := some ms } merge persistOk now s).2.localStore =
          s.localStore)
    ∧ (persistOk = true →
        (importMemories cid { memories := some ms } merge persistOk now s).2.localStore cid =
          some { (loadMemories cid "" now s).1 with
                 memories :=
                   (if merge then
                     (loadMemories cid "" now s).1.memories ++
                       ms.filter (fun m =>
                         !(((loadMemories cid "" now s).1.memories.map
                             (fun x => x.id)).contains m.id))
                   else ms),
                 updated_at := now }) := by
  refine ⟨rfl, ?_, ?_, ?_⟩
  · simp only [importMemories]
    exact saveMemories_cache cid _ persistOk now (loadMemories cid "" now s).2
  · intro h
    subst h
    simp only [importMemories]
    rw [saveMemories_localStore_fail, loadMemories_localStore]
  · intro h
    subst h
    simp only [importMemories]
    exact saveMemories_localStore_ok cid _ now (loadMemories cid "" now s).2

/-- C3 counterexample: with the persistence write failing
(`persistOk = false`), a merge import of one new record still returns
success (`ok 1`), the cache for `c` now holds the merged two-record
store, and nothing was persisted — so the store is neither left
unchanged nor fully persisted, refuting atomicity as claimed. -/
theorem importMemories_notAtomic_cex :
    (importMemories "c" { memories := some [cexRecord "b"] } true false "t1"
        cexState).1 = Except.ok 1
    ∧ ((importMemories "c" { memories := some [cexRecord "b"] } true false "t1"
          cexState).2.cache "c").map (fun d => d.memories.map (fun m => m.id)) =
        some ["a", "b"]
    ∧ (importMemories "c" { memories := some [cexRecord "b"] } true false "t1"
          cexState).2.localStore "c" = none := by
  refine ⟨rfl, rfl, rfl⟩

/-- C4 (amended): `importMemories` fails on a payload without a
memories array and leaves the state untouched; otherwise it returns the
number of memories in the payload (not the number actually added), and
the store's memories become the merge (existing ids win, only new ids
appended, payload order kept) or the replacement. -/
theorem importMemories_count_spec (payload : ImportPayload)
    (merge persistOk : Bool) (now cid : String) (s : StorageState) :
    (payload.memories = none →
        importMemories cid payload merge persistOk now s =
          (Except.error "Invalid memory file format", s))
    ∧ (∀ ms, payload.memories = some ms →
        (importMemories cid payload merge persistOk now s).1 = Except.ok ms.length
        ∧ storedMemories cid (importMemories cid payload merge persistOk now s).2 =
            (if merge then
              storedMemories cid s ++
                ms.filter (fun m =>
                  !(((storedMemories cid s).map (fun x => x.id)).contains m.id))
            else ms)) := by
  constructor
  · intro h
    simp only [importMemories, h]
  · intro ms h
    refine ⟨by simp only [importMemories, h], ?_⟩
    simp only [importMemories, h]
    rw [storedMemories_save, loadMemories_memories]

/-- C4 counterexample: merging a payload whose single record has the
already-present id `a` adds nothing (the store still holds exactly one
record), yet the call returns `ok 1` — the return value counts the
payload, not the memories imported into the store. -/
theorem importMemories_countsSkipped_cex :
    (importMemories "c" { memories := some [cexRecord "a"] } true true "t1"
        cexState).1 = Except.ok 1
    ∧ ((importMemories "c" { memories := some [cexRecord "a"] } true true "t1"
          cexState).2.cache "c").map (fun d => d.memories.map (fun m => m.id)) =
        some ["a"] := by
  refine ⟨rfl, rfl⟩

/-- C5: export/import round-trip.  The exported payload carries exactly
the store's memories, and importing it back with `merge = false`
reports the full count and leaves the store's memories sequence
identical to the original — same ids, same order, same embeddings. -/
theorem exportImport_roundTrip (cid : String) (persistOk : Bool)
    (t1 t2 : String) (s : StorageState) :
    (exportMemories cid t1 s).1.memories = storedMemories cid s
    ∧ (importMemories cid { memories := some (exportMemories cid t1 s).1.memories }
          false persistOk t2 (exportMemories cid t1 s).2).1 =
        Except.ok (exportMemories cid t1 s).1.memories.length
    ∧ storedMemories cid
        (importMemories cid { memories := some (exportMemories cid t1 s).1.memories }
          false persistOk t2 (exportMemories cid t1 s).2).2 =
      (exportMemories cid t1 s).1.memories := by
  refine ⟨loadMemories_memories cid "" t1 s, rfl, ?_⟩
  simp only [importMemories, exportMemories]
  rw [storedMemories_save]
  simp

/-- C6: merge-import idempotence.  Importing the store's own export
with `merge = true` adds nothing (every payload id is already present),
and importing it a second time leaves the memories — in particular
their count — unchanged from the state after the first import. -/
theorem mergeImport_idempotent (cid : String) (p1 p2 : Bool)
    (t0 t1 t2 : String) (s : StorageState) :
    let e := exportMemories cid t0 s
    let payload : ImportPayload := { memories := some e.1.memories }
    let r1 := importMemories cid payload true p1 t1 e.2
    let r2 := importMemories cid payload true p2 t2 r1.2
    storedMemories cid r2.2 = storedMemories cid r1.2
    ∧ (storedMemories cid r2.2).length = (storedMemories cid r1.2).length
    ∧ storedMemories cid r1.2 = storedMemories cid s := by
  intro e payload r1 r2
  have h0 : e.2.cache cid = some e.1 := loadMemories_cache_self cid "" t0 s
  obtain ⟨hs1, hc1⟩ := importMerge_self cid p1 t1 e.2 e.1 h0
  obtain ⟨hs2, hc2⟩ :=
    importMerge_self cid p2 t2 r1.2 { e.1 with updated_at := t1 } hc1
  have hmem : storedMemories cid r2.2 = e.1.memories := hs2
  refine ⟨?_, ?_, ?_⟩
  · rw [hmem, hs1]
  · rw [hmem, hs1]
  · rw [hs1, ← loadMemories_memories cid "" t0 s]
    rfl

/-! ## Add-memory claims -/

/-- C8 (amended): `addMemory` finalizes the draft with the id produced
by `generateUUID` from the pseudo-random draws and the current
timestamp, appends it at the end of the store, and persists.  The new
id is distinct from the existing ids exactly when the generated string
differs from all of them — nothing checks or enforces this, so id
uniqueness is preserved only under the assumption that the generated
UUID is fresh. -/
theorem addMemory_spec (rnd : Nat → Fin 16) (now cid : String)
    (draft : MemoryDraft) (persistOk : Bool) (s : StorageState) :
    (addMemory rnd now cid draft persistOk s).1.id = generateUUID rnd
    ∧ (addMemory rnd now cid draft persistOk s).1.timestamp = now
    ∧ (addMemory rnd now cid draft persistOk s).1.original_message =
        draft.original_message
    ∧ (addMemory rnd now cid draft persistOk s).1.summary = draft.summary
    ∧ (addMemory rnd now cid draft persistOk s).1.embedding = draft.embedding
    ∧ storedMemories cid (addMemory rnd now cid draft persistOk s).2 =
        storedMemories cid s ++ [(addMemory rnd now cid draft persistOk s).1]
    ∧ (generateUUID rnd ∉ (storedMemories cid s).map (fun m => m.id) →
        ((storedMemories cid s).map (fun m => m.id)).Nodup →
        ((storedMemories cid (addMemory rnd now cid draft persistOk s).2).map
            (fun m => m.id)).Nodup) := by
  have hstore : storedMemories cid (addMemory rnd now cid draft persistOk s).2 =
      storedMemories cid s ++ [(addMemory rnd now cid draft persistOk s).1] := by
    simp only [addMemory]
    rw [storedMemories_save, loadMemories_memories]
  refine ⟨rfl, rfl, rfl, rfl, rfl, hstore, ?_⟩
  intro hnotin hnodup
  have hid : (addMemory rnd now cid draft persistOk s).1.id = generateUUID rnd := rfl
  rw [hstore, List.map_append]
  simp [List.nodup_append, hnodup, hid, hnotin]

/-- C8 counterexample: when the random source yields `0` on every draw,
`generateUUID` returns `00000000-0000-4000-8000-000000000000`; adding a
memory to a store that already contains a record with exactly that id
appends a record whose id collides with an existing one, so the ids of
the resulting store are no longer pairwise distinct — refuting the
claim that the assigned id is always distinct from every existing id. -/
theorem addMemory_duplicateId_cex :
    ((addMemory (fun _ => (0 : Fin 16)) "t1" "c"
        { original_message := "msg", summary := "sum", embedding := none,
          role := "user", chat_id := none, importance := 0 } true cexStateDup).1.id)
      ∈ (storedMemories "c" cexStateDup).map (fun m => m.id)
    ∧ ¬ (((storedMemories "c"
          (addMemory (fun _ => (0 : Fin 16)) "t1" "c"
            { original_message := "msg", summary := "sum", embedding := none,
              role := "user", chat_id := none, importance := 0 } true
            cexStateDup).2).map (fun m => m.id)).Nodup) := by
  constructor
  · decide
  · decide


/-! ## Summarizer claims -/

theorem jsTrimList_eq_nil (cs : List Char)
    (h : ∀ c ∈ cs, c.isWhitespace = true) : jsTrimList cs = [] := by
  unfold jsTrimList
  have h1 : cs.dropWhile Char.isWhitespace = [] :=
    List.dropWhile_eq_nil_iff.mpr h
  rw [h1]
  simp

theorem jsTrimList_length_le (cs : List Char) :
    (jsTrimList cs).length ≤ cs.length := by
  unfold jsTrimList
  rw [List.length_reverse]
  calc ((cs.dropWhile Char.isWhitespace).reverse.dropWhile Char.isWhitespace).length
      ≤ (cs.dropWhile Char.isWhitespace).reverse.length :=
        (List.dropWhile_sublist Char.isWhitespace).length_le
    _ = (cs.dropWhile Char.isWhitespace).length := List.length_reverse _
    _ ≤ cs.length := (List.dropWhile_sublist Char.isWhitespace).length_le

/-- C10: with URL and key configured, an empty or whitespace-only
message makes `summarize` return the empty string without consulting
the request outcome (the result is the same for any two outcomes, so no
HTTP request is observable); and the no-summary error arises only for a
message that is not whitespace-only, on a successful response whose
extracted content is missing or trims to empty. -/
theorem summarize_spec (url key msg : String) (fch fch2 : FetchOutcome) :
    ((∀ c ∈ msg.data, c.isWhitespace = true) → url ≠ "" → key ≠ "" →
        summarize url key msg fch = Except.ok ""
        ∧ summarize url key msg fch = summarize url key msg fch2)
    ∧ (summarize url key msg fch = Except.error SummarizeError.noSummary →
        ¬(∀ c ∈ msg.data, c.isWhitespace = true)
        ∧ ∃ copt, fch = FetchOutcome.success copt
            ∧ (copt = none ∨ ∃ c, copt = some c ∧ jsTrim c = "")) := by
  constructor
  · intro hws hu hk
    have ht : jsTrimList msg.data = [] := jsTrimList_eq_nil msg.data hws
    constructor <;> simp [summarize, hu, hk, ht]
  · intro h
    unfold summarize at h
    by_cases hcfg : url = "" ∨ key = ""
    · rw [if_pos hcfg] at h
      exact absurd h (by simp)
    · rw [if_neg hcfg] at h
      by_cases ht : (jsTrimList msg.data).length = 0
      · rw [if_pos ht] at h
        exact absurd h (by simp)
      · rw [if_neg ht] at h
        constructor
        · intro hws
          exact ht (by rw [jsTrimList_eq_nil msg.data hws]; rfl)
        · cases fch with
          | networkFailure m => exact absurd h (by simp)
          | httpError st d => exact absurd h (by simp)
          | success copt =>
            cases copt with
            | none => exact ⟨none, rfl, Or.inl rfl⟩
            | some c =>
              by_cases hc : jsTrim c = ""
              · exact ⟨some c, rfl, Or.inr ⟨c, rfl, hc⟩⟩
              · simp [hc] at h

/-! ## Write-path pipeline claims -/

/-- C2: the write-path pipeline is fail-fast and all-or-nothing.  The
history-gathering load never changes any store's memories; and for a
message that passes the guards, a summarizer error, an empty summary,
an embedder error or an empty embedding vector each yield exactly one
surfaced error with the storage left at the post-history-load state (no
record added anywhere, nothing persisted) — and on a summarizer
failure the result does not depend on the embedding oracle at all, so
the embedding stage is never consulted.  Only when every stage
succeeds is the single finalized record appended. -/
theorem processAndStoreMessage_pipeline (mt role : String) (ih : Bool)
    (cid : String) (chatId : Option String)
    (sr : Except String String) (er er2 : String → Except String (List ℝ))
    (rnd : Nat → Fin 16) (now : String) (pOk : Bool) (s : StorageState) :
    let s1 := if ih then (loadMemories cid "" now s).2 else s
    let run := fun (e : String → Except String (List ℝ)) =>
      processAndStoreMessage false mt role ih cid chatId sr e rnd now pOk s
    (∀ c, storedMemories c s1 = storedMemories c s)
    ∧ (20 ≤ (jsTrimList mt.data).length →
        (∀ e, sr = Except.error e →
            run er = (.failed e, false, s1) ∧ run er = run er2)
        ∧ (sr = Except.ok "" →
            run er = (.failed "Failed to generate summary", false, s1)
            ∧ run er = run er2)
        ∧ (∀ sum e, sr = Except.ok sum → sum ≠ "" → er sum = Except.error e →
            run er = (.failed e, false, s1))
        ∧ (∀ sum, sr = Except.ok sum → sum ≠ "" → er sum = Except.ok [] →
            run er = (.failed "Failed to generate embedding", false, s1))
        ∧ (∀ sum emb, sr = Except.ok sum → sum ≠ "" → er sum = Except.ok emb →
            emb ≠ [] →
            run er =
              (.stored (addMemory rnd now cid
                  (createMemory mt sum emb role chatId) pOk s1).1,
                false,
                (addMemory rnd now cid
                  (createMemory mt sum emb role chatId) pOk s1).2)
            ∧ storedMemories cid
                (addMemory rnd now cid
                  (createMemory mt sum emb role chatId) pOk s1).2 =
              storedMemories cid s ++
                [(addMemory rnd now cid
                    (createMemory mt sum emb role chatId) pOk s1).1])) := by
  intro s1 run
  have hs1 : ∀ c, storedMemories c s1 = storedMemories c s := by
    intro c
    show storedMemories c (if ih then (loadMemories cid "" now s).2 else s) =
      storedMemories c s
    cases ih with
    | false => rfl
    | true => exact storedMemories_load c cid "" now s
  have hguard : ∀ e, 20 ≤ (jsTrimList mt.data).length →
      run e = (let s1 := if ih then (loadMemories cid "" now s).2 else s
        match sr with
        | .error msg => (ProcessOutcome.failed msg, false, s1)
        | .ok summary =>
          if summary = "" then
            (ProcessOutcome.failed "Failed to generate summary", false, s1)
          else
            match e summary with
            | .error msg => (ProcessOutcome.failed msg, false, s1)
            | .ok embedding =>
              if embedding.length = 0 then
                (ProcessOutcome.failed "Failed to generate embedding", false, s1)
              else
                let draft := createMemory mt summary embedding role chatId
                let add := addMemory rnd now cid draft pOk s1
                (ProcessOutcome.stored add.1, false, add.2)) := by
    intro e hlen
    show processAndStoreMessage false mt role ih cid chatId sr e rnd now pOk s = _
    unfold processAndStoreMessage
    rw [if_neg (by simp), if_neg (by omega)]
  refine ⟨hs1, ?_⟩
  intro hlen
  refine ⟨?_, ?_, ?_, ?_, ?_⟩
  · intro e he
    subst he
    rw [hguard er hlen, hguard er2 hlen]
    exact ⟨rfl, rfl⟩
  · intro he
    subst he
    rw [hguard er hlen, hguard er2 hlen]
    exact ⟨rfl, rfl⟩
  · intro sum e hsr hsum hemb
    subst hsr
    rw [hguard er hlen]
    simp only [if_neg hsum, hemb]
  · intro sum hsr hsum hemb
    subst hsr
    rw [hguard er hlen]
    simp only [if_neg hsum, hemb]
    rfl
  · intro sum emb hsr hsum hemb hne
    subst hsr
    constructor
    · rw [hguard er hlen]
      simp only [if_neg hsum, hemb]
      rw [if_neg (by simpa using hne)]
    · have : storedMemories cid
          (addMemory rnd now cid (createMemory mt sum emb role chatId) pOk s1).2 =
          storedMemories cid s1 ++
            [(addMemory rnd now cid (createMemory mt sum emb role chatId) pOk s1).1] := by
        simp only [addMemory]
        rw [storedMemories_save, loadMemories_memories]
      rw [this, hs1 cid]

/-! ## Single-flight claims -/

theorem flagStep_inv (st : FlagState) (ev : WriteEvent)
    (h1 : st.flag = false → st.active = []) (h2 : st.active.length ≤ 1) :
    ((flagStep st ev).flag = false → (flagStep st ev).active = [])
    ∧ (flagStep st ev).active.length ≤ 1 := by
  cases ev with
  | invoke i =>
    by_cases hf : st.flag
    · simpa [flagStep, hf] using And.intro h1 h2
    · have ha := h1 (by simpa using hf)
      simp [flagStep, hf, ha]
  | finish i =>
    by_cases hm : i ∈ st.active
    · have hone : st.active = [i] := by
        cases hact : st.active with
        | nil => rw [hact] at hm; cases hm
        | cons x rest =>
          cases rest with
          | nil =>
            rw [hact] at hm
            rcases List.mem_singleton.mp hm with rfl
            rfl
          | cons y rest2 =>
            rw [hact] at h2
            simp at h2
      simp [flagStep, hm, hone]
    · simpa [flagStep, hm] using And.intro h1 h2

theorem flagSteps_inv (evs : List WriteEvent) :
    ((evs.foldl flagStep flagInit).flag = false →
      (evs.foldl flagStep flagInit).active = [])
    ∧ (evs.foldl flagStep flagInit).active.length ≤ 1 := by
  suffices h : ∀ st : FlagState, (st.flag = false → st.active = []) →
      st.active.length ≤ 1 →
      ((evs.foldl flagStep st).flag = false → (evs.foldl flagStep st).active = [])
      ∧ (evs.foldl flagStep st).active.length ≤ 1 by
    exact h flagInit (fun _ => rfl) (by simp [flagInit])
  induction evs with
  | nil => exact fun st hh1 hh2 => ⟨hh1, hh2⟩
  | cons ev rest ihr =>
    intro st hh1 hh2
    obtain ⟨g1, g2⟩ := flagStep_inv st ev hh1 hh2
    exact ihr (flagStep st ev) g1 g2

/-- C9: the single-flight guard.  A call entering while the in-flight
flag is set, or whose text is shorter than the 20-character minimum, is
dropped: it is a strict no-op that leaves the storage untouched and
whose result does not depend on the summarizer or embedder oracles
(neither service is consulted), and it is not queued — the outcome is
`dropped`.  And along any trace of invocation events driven by the flag
discipline (guard-check and flag-set form one synchronous block, the
`finally` clause clears the flag), at most one write-path execution is
in flight at any time. -/
theorem singleFlight_spec (mt role : String) (ih : Bool) (cid : String)
    (chatId : Option String) (sr sr2 : Except String String)
    (er er2 : String → Except String (List ℝ)) (rnd : Nat → Fin 16)
    (now : String) (pOk : Bool) (s : StorageState) (evs : List WriteEvent) :
    (processAndStoreMessage true mt role ih cid chatId sr er rnd now pOk s =
        (.dropped, true, s)
      ∧ processAndStoreMessage true mt role ih cid chatId sr er rnd now pOk s =
          processAndStoreMessage true mt role ih cid chatId sr2 er2 rnd now pOk s)
    ∧ (mt.length < 20 →
        processAndStoreMessage false mt role ih cid chatId sr er rnd now pOk s =
          (.dropped, false, s)
        ∧ processAndStoreMessage false mt role ih cid chatId sr er rnd now pOk s =
            processAndStoreMessage false mt role ih cid chatId sr2 er2 rnd now pOk s)
    ∧ (evs.foldl flagStep flagInit).active.length ≤ 1 := by
  refine ⟨⟨rfl, rfl⟩, ?_, (flagSteps_inv evs).2⟩
  intro hlen
  have htrim : (jsTrimList mt.data).length < 20 :=
    lt_of_le_of_lt (jsTrimList_length_le mt.data) hlen
  constructor
  · unfold processAndStoreMessage
    rw [if_neg (by simp), if_pos htrim]
  · unfold processAndStoreMessage
    rw [if_neg (by simp), if_pos htrim, if_neg (by simp), if_pos htrim]

/-! ## Retrieval claims -/

/-- C1 (amended): `findTopKSimilar` returns only memories with a
non-empty embedding whose cosine similarity to the query is at or above
the threshold, with the memory's own score attached; the output is
sorted non-increasing by score; within one score value the output is a
prefix of the candidates in original insertion order (stable ties); the
length is at most `min k` (number of memories above threshold); a
missing (`null`) query or an empty memory collection yields the empty
sequence, and an empty-but-present query vector scores every memory `0`,
so it yields the empty sequence whenever the threshold is positive (but
not necessarily for thresholds at or below `0`). -/
theorem findTopKSimilar_spec (q : Option (List ℝ)) (mems : List MemoryRecord)
    (k : Nat) (θ : ℝ) :
    (∀ p ∈ findTopKSimilar q mems k θ,
        p.1 ∈ mems ∧ hasEmbedding p.1 = true
        ∧ p.2 = cosineSimilarity q p.1.embedding ∧ θ ≤ p.2)
    ∧ (findTopKSimilar q mems k θ).Pairwise (fun a b => b.2 ≤ a.2)
    ∧ (findTopKSimilar q mems k θ).length ≤ min k (scoredMemories q mems θ).length
    ∧ (∀ s : ℝ,
        (findTopKSimilar q mems k θ).filter (fun p => decide (p.2 = s)) <+:
          (scoredMemories q mems θ).filter (fun p => decide (p.2 = s)))
    ∧ (q = none → findTopKSimilar q mems k θ = [])
    ∧ (mems = [] → findTopKSimilar q mems k θ = [])
    ∧ (0 < θ → findTopKSimilar (some []) mems k θ = []) := by
  have hposq : ∀ θ2 : ℝ, 0 < θ2 → scoredMemories (some []) mems θ2 = [] := by
    intro θ2 hθ
    apply List.filter_eq_nil_iff.mpr
    intro p hp
    rcases List.mem_map.mp hp with ⟨m, hm2, rfl⟩
    have hemb : hasEmbedding m = true := (List.mem_filter.mp hm2).2
    rcases hme : m.embedding with - | e
    · simp [hasEmbedding, hme] at hemb
    · have hlen : 0 < e.length := by
        have h := hemb
        simp [hasEmbedding, hme] at h
        exact h
      have hcos : cosineSimilarity (some []) (some e) = 0 := by
        simp [cosineSimilarity, hlen.ne]
      simp only [hcos, decide_eq_true_eq]
      exact not_le.mpr hθ
  cases q with
  | none =>
    refine ⟨?_, ?_, ?_, ?_, fun _ => rfl, fun _ => rfl, ?_⟩
    · intro p hp
      rw [show findTopKSimilar none mems k θ = [] from rfl] at hp
      cases hp
    · rw [show findTopKSimilar none mems k θ = [] from rfl]
      exact List.Pairwise.nil
    · rw [show findTopKSimilar none mems k θ = [] from rfl]
      simp
    · intro s
      rw [show findTopKSimilar none mems k θ = [] from rfl]
      exact List.nil_prefix
    · intro hθ
      unfold findTopKSimilar
      by_cases hm : mems.length = 0
      · rw [if_pos hm]
      · rw [if_neg hm, hposq θ hθ]
        simp
  | some qv =>
    by_cases hm : mems.length = 0
    · have hz : findTopKSimilar (some qv) mems k θ = [] := by
        unfold findTopKSimilar
        rw [if_pos hm]
      refine ⟨?_, ?_, ?_, ?_, fun h => Option.noConfusion h, fun _ => hz, ?_⟩
      · intro p hp
        rw [hz] at hp
        cases hp
      · rw [hz]
        exact List.Pairwise.nil
      · rw [hz]
        simp
      · intro s
        rw [hz]
        exact List.nil_prefix
      · intro hθ
        unfold findTopKSimilar
        rw [if_pos hm]
    · have heq : findTopKSimilar (some qv) mems k θ =
          ((scoredMemories (some qv) mems θ).mergeSort simDescending).take k := by
        unfold findTopKSimilar
        rw [if_neg hm]
      have hmut : ∀ s : ℝ, ∀ a b : MemoryRecord × ℝ,
          (fun p : MemoryRecord × ℝ => decide (p.2 = s)) a = true →
          (fun p : MemoryRecord × ℝ => decide (p.2 = s)) b = true →
          simDescending a b = true := by
        intro s a b ha hb
        simp only [decide_eq_true_eq] at ha hb
        simp [simDescending, ha, hb]
      refine ⟨?_, ?_, ?_, ?_, fun h => Option.noConfusion h, ?_, ?_⟩
      · intro p hp
        rw [heq] at hp
        have hp1 : p ∈ (scoredMemories (some qv) mems θ).mergeSort simDescending :=
          List.mem_of_mem_take hp
        have hp2 : p ∈ scoredMemories (some qv) mems θ := List.mem_mergeSort.mp hp1
        unfold scoredMemories at hp2
        obtain ⟨hpm, hpθ⟩ := List.mem_filter.mp hp2
        rcases List.mem_map.mp hpm with ⟨m, hm2, rfl⟩
        obtain ⟨hmm, hme⟩ := List.mem_filter.mp hm2
        exact ⟨hmm, hme, rfl, of_decide_eq_true hpθ⟩
      · rw [heq]
        have hs := List.sorted_mergeSort simDescending_trans simDescending_total
          (scoredMemories (some qv) mems θ)
        have hs2 : ((scoredMemories (some qv) mems θ).mergeSort
            simDescending).Pairwise (fun a b => b.2 ≤ a.2) := by
          refine hs.imp ?_
          intro a b hab
          exact of_decide_eq_true hab
        exact hs2.sublist (List.take_sublist k _)
      · rw [heq, List.length_take, List.length_mergeSort]
      · intro s
        rw [heq]
        have hkey := mergeSort_filter_key simDescending
          (fun p : MemoryRecord × ℝ => decide (p.2 = s))
          simDescending_trans simDescending_total (hmut s)
          (scoredMemories (some qv) mems θ)
        refine ⟨(((scoredMemories (some qv) mems θ).mergeSort simDescending).drop
          k).filter (fun p : MemoryRecord × ℝ => decide (p.2 = s)), ?_⟩
        rw [← List.filter_append, List.take_append_drop, hkey]
      · intro hmems
        exact absurd (by rw [hmems]; rfl) hm
      · intro hθ
        unfold findTopKSimilar
        rw [if_neg hm, hposq θ hθ]
        simp

/-- C1 counterexample: an empty-but-present query vector does not take
the early-return branch (only a `null` query does).  With threshold `0`
every memory scores `0 ≥ 0`, so the result is non-empty — refuting the
claim that the empty sequence is returned for every empty query vector
at every threshold. -/
theorem findTopKSimilar_emptyQuery_cex :
    findTopKSimilar (some []) [cexRecordEmb] 5 0 ≠ [] := by
  have hcos : cosineSimilarity (some []) cexRecordEmb.embedding = 0 := by
    rw [show cexRecordEmb.embedding = some [(1 : ℝ)] from rfl]
    simp [cosineSimilarity]
  have hfil : [cexRecordEmb].filter hasEmbedding = [cexRecordEmb] := rfl
  have hstep : scoredMemories (some []) [cexRecordEmb] 0 = [(cexRecordEmb, 0)] := by
    unfold scoredMemories
    rw [hfil]
    simp only [List.map_cons, List.map_nil, hcos]
    have hdec : decide ((0 : ℝ) ≤ (cexRecordEmb, (0 : ℝ)).2) = true :=
      decide_eq_true le_rfl
    simp [List.filter_cons, hdec]
  have hmain : findTopKSimilar (some []) [cexRecordEmb] 5 0 = [(cexRecordEmb, 0)] := by
    unfold findTopKSimilar
    rw [if_neg (by simp), hstep]
    simp
  rw [hmain]
  simp
